import Mathlib

/-!
Verification of the edge-set-attention repository against its natural-language
specification.  Each section shallowly embeds the Python code it is about:

* `GnnTrain`     — `gnn/train.py` (`main`): CLI-argument validation, the
  batch-size adjustment, and the final test-artifact persistence.
* `MasterLoader` — `graphgps_node/graphgps/loader/master_loader.py`
  (`load_dataset_master`, `join_dataset_splits`, `preformat_OGB_PCQM4Mv2`).
* `CustomTrain`  — `graphgps_graph/graphgps/train/custom_train.py`
  (`train_epoch`, `custom_train`): the gradient-accumulation loop and the
  epoch loop with early stopping.
* `TokenGT`      — `graphormer_tokengt/tokengt/collating_tokengt.py`
  (`eig`, `lap_eig`).

Third-party library calls (numpy, torch, torch_geometric, pytorch_lightning)
are modelled as oracles: their outputs become explicit parameters of the
embedded functions, and only the repository's own control flow and data
manipulation are formalised.
-/

namespace GnnTrain

/-- Sizes of the consecutive batches obtained by splitting `n` samples into
chunks of `bs` (the semantics of `DataLoader(train, batch_size=bs)` with the
default `drop_last=False`, `gnn/train.py` line 149; shuffling permutes the
samples but not the chunk sizes).  `fuel` is a structural-recursion bound;
`batchSizes` below instantiates it with `n`, which always suffices. -/
def batchChunks (bs : ℕ) : ℕ → ℕ → List ℕ
  | _, 0 => []
  | 0, _ + 1 => []
  | fuel + 1, n + 1 =>
    if bs = 0 then [] else min bs (n + 1) :: batchChunks bs fuel (n + 1 - bs)

/-- The list of batch sizes produced by a loader over `n` samples with batch
size `bs`. -/
def batchSizes (bs n : ℕ) : List ℕ := batchChunks bs n n

/-- The batch-size adjustment of `gnn/train.py` lines 141-142:
`if len(train) % batch_size == 1: batch_size += 1`. -/
def adjusted_batch_size (n bs : ℕ) : ℕ := if n % bs = 1 then bs + 1 else bs

theorem batchChunks_zero (bs fuel : ℕ) : batchChunks bs fuel 0 = [] := by
  cases fuel <;> rfl

theorem batchChunks_getLast? (bs : ℕ) (hb : 1 ≤ bs) :
    ∀ fuel n, n ≤ fuel → 1 ≤ n →
      (batchChunks bs fuel n).getLast? = some (if n % bs = 0 then bs else n % bs) := by
  intro fuel
  induction fuel with
  | zero => intro n hn h1; omega
  | succ f ih =>
    intro n hn h1
    obtain ⟨m, rfl⟩ : ∃ m, n = m + 1 := ⟨n - 1, by omega⟩
    have hbs : ¬ bs = 0 := by omega
    rw [batchChunks, if_neg hbs]
    by_cases hle : m + 1 ≤ bs
    · have htail : m + 1 - bs = 0 := by omega
      rw [htail, batchChunks_zero]
      by_cases heq : m + 1 = bs
      · simp [heq, Nat.mod_self]
      · have hlt : m + 1 < bs := by omega
        rw [Nat.mod_eq_of_lt hlt]
        simp [if_neg (by omega : ¬ m + 1 = 0), Nat.min_eq_right (by omega : m + 1 ≤ bs)]
    · have h1' : 1 ≤ m + 1 - bs := by omega
      have h2' : m + 1 - bs ≤ f := by omega
      have := ih (m + 1 - bs) h2' h1'
      rw [List.getLast?_cons, this]
      have hmod : (m + 1) % bs = (m + 1 - bs) % bs :=
        Nat.mod_eq_sub_mod (by omega)
      rw [hmod]
      rfl

/-- C9 counterexample: a training set of 7 samples with requested batch size 2
(7 % 2 = 1, so the code bumps the batch size to 3), yet the final batch of the
adjusted splitting is [3, 3, 1] and contains exactly one sample — the claim
"the final training batch never contains exactly one sample" is false. -/
theorem adjusted_batch_size_singleton_counterexample :
    1 ≤ 7 ∧ 2 ≤ 2 ∧
    adjusted_batch_size 7 2 = 3 ∧
    batchSizes (adjusted_batch_size 7 2) 7 = [3, 3, 1] ∧
    (batchSizes (adjusted_batch_size 7 2) 7).getLast? = some 1 := by
  decide

/-- C9 (amended): for every non-empty training set of `n` samples and every
requested batch size `bs > 1`, after the adjustment of `gnn/train.py` lines
141-142 the final batch contains exactly one sample if and only if `n` is
congruent to 1 modulo both `bs` and `bs + 1`; in every other case the final
batch never contains exactly one sample. -/
theorem adjusted_batch_size_last_singleton_iff (n bs : ℕ) (hn : 1 ≤ n) (hb : 2 ≤ bs) :
    (batchSizes (adjusted_batch_size n bs) n).getLast? = some 1 ↔
      (n % bs = 1 ∧ n % (bs + 1) = 1) := by
  unfold batchSizes adjusted_batch_size
  by_cases h : n % bs = 1
  · rw [if_pos h]
    rw [batchChunks_getLast? (bs + 1) (by omega) n n le_rfl hn]
    by_cases h2 : n % (bs + 1) = 0
    · simp only [if_pos h2]
      constructor
      · intro hc
        exact absurd (Option.some_injective _ hc) (by omega)
      · intro hc
        omega
    · simp only [if_neg h2]
      constructor
      · intro hc
        exact ⟨h, Option.some_injective _ hc⟩
      · intro hc
        exact congrArg some hc.2
  · rw [if_neg h]
    rw [batchChunks_getLast? bs (by omega) n n le_rfl hn]
    constructor
    · intro hc
      have := Option.some_injective _ hc
      by_cases h2 : n % bs = 0
      · rw [if_pos h2] at this; omega
      · rw [if_neg h2] at this; omega
    · intro hc
      exact absurd hc.1 h

theorem adjusted_batch_size_last_singleton_iff_witness :
    1 ≤ 12 ∧ 2 ≤ 5 ∧
    ((batchSizes (adjusted_batch_size 12 5) 12).getLast? = some 1 ↔
      (12 % 5 = 1 ∧ 12 % (5 + 1) = 1)) :=
  ⟨by decide, by decide, adjusted_batch_size_last_singleton_iff 12 5 (by decide) (by decide)⟩

end GnnTrain

namespace MasterLoader

/-- `join_dataset_splits` (master_loader.py lines 611-635).  A dataset is
modelled as its list of graphs.  The function asserts that exactly three
datasets are given, concatenates their graphs train-then-val-then-test, and
attaches `split_idxs = [range(n1), range(n1, n1+n2), range(n1+n2, n1+n2+n3)]`.
A Python `AssertionError` is modelled as `Except.error` with the assert
message. -/
def join_dataset_splits {α : Type} (datasets : List (List α)) :
    Except String (List α × List (List ℕ)) :=
  if datasets.length = 3 then
    let d1 := datasets.getD 0 []
    let d2 := datasets.getD 1 []
    let d3 := datasets.getD 2 []
    Except.ok (d1 ++ d2 ++ d3,
      [List.range d1.length,
       List.range' d1.length d2.length,
       List.range' (d1.length + d2.length) d3.length])
  else Except.error "Expecting train, val, test datasets"

theorem range'_append_one (s m n : ℕ) :
    List.range' s m ++ List.range' (s + m) n = List.range' s (m + n) := by
  have h := List.range'_append s m n 1
  rw [Nat.one_mul] at h
  rw [Nat.add_comm m n]
  exact h

theorem mem_range'_iff {s n m : ℕ} : m ∈ List.range' s n ↔ s ≤ m ∧ m < s + n := by
  rw [List.mem_range']
  constructor
  · rintro ⟨i, hi, rfl⟩; omega
  · intro h; exact ⟨m - s, by omega, by omega⟩

/-- C5: for every list of exactly three datasets with `n1`, `n2`, `n3` graphs,
`join_dataset_splits` returns a single dataset holding all `n1+n2+n3` graphs in
train-then-val-then-test order, whose `split_idxs` are the three contiguous
ranges `[0,n1)`, `[n1,n1+n2)`, `[n1+n2,n1+n2+n3)` — pairwise disjoint and
together covering every graph index; for a list of any other length it fails
with an assertion error. -/
theorem join_dataset_splits_spec {α : Type} :
    (∀ d1 d2 d3 : List α,
      join_dataset_splits [d1, d2, d3] =
        Except.ok (d1 ++ d2 ++ d3,
          [List.range d1.length,
           List.range' d1.length d2.length,
           List.range' (d1.length + d2.length) d3.length]) ∧
      (d1 ++ d2 ++ d3).length = d1.length + d2.length + d3.length ∧
      List.range d1.length ++ List.range' d1.length d2.length ++
          List.range' (d1.length + d2.length) d3.length =
        List.range (d1.length + d2.length + d3.length) ∧
      (∀ i, i ∈ List.range d1.length →
        i ∉ List.range' d1.length d2.length ∧
        i ∉ List.range' (d1.length + d2.length) d3.length) ∧
      (∀ i, i ∈ List.range' d1.length d2.length →
        i ∉ List.range' (d1.length + d2.length) d3.length)) ∧
    (∀ ds : List (List α), ds.length ≠ 3 →
      join_dataset_splits ds = Except.error "Expecting train, val, test datasets") := by
  constructor
  · intro d1 d2 d3
    refine ⟨by simp [join_dataset_splits], by simp only [List.length_append], ?_, ?_, ?_⟩
    · have h1 := range'_append_one d1.length d2.length d3.length
      have h2 := range'_append_one 0 d1.length (d2.length + d3.length)
      rw [Nat.zero_add] at h2
      rw [List.append_assoc, h1, List.range_eq_range', h2, List.range_eq_range',
        Nat.add_assoc]
    · intro i hi
      rw [List.mem_range] at hi
      constructor
      · intro hc; rw [mem_range'_iff] at hc; omega
      · intro hc; rw [mem_range'_iff] at hc; omega
    · intro i hi hc
      rw [mem_range'_iff] at hi hc
      omega
  · intro ds h
    simp [join_dataset_splits, h]

theorem join_dataset_splits_spec_witness :
    (join_dataset_splits [([10] : List ℕ), [20, 30], [40]] =
        Except.ok ([10, 20, 30, 40],
          [List.range 1, List.range' 1 2, List.range' 3 1]) ∧
      ([10] ++ [20, 30] ++ [40] : List ℕ).length = 1 + 2 + 1 ∧
      List.range 1 ++ List.range' 1 2 ++ List.range' 3 1 = List.range 4 ∧
      (∀ i, i ∈ List.range 1 → i ∉ List.range' 1 2 ∧ i ∉ List.range' 3 1) ∧
      (∀ i, i ∈ List.range' 1 2 → i ∉ List.range' 3 1)) ∧
    join_dataset_splits ([] : List (List ℕ)) =
      Except.error "Expecting train, val, test datasets" :=
  ⟨(join_dataset_splits_spec.1 [10] [20, 30] [40]),
   join_dataset_splits_spec.2 [] (by decide)⟩

end MasterLoader

namespace TokenGT

/-- The output of `np.linalg.eigh` on the normalized Laplacian built by
`lap_eig` (collating_tokengt.py lines 50-60).  `eigh` is third-party numerical
code, so its result is an oracle input to the embedding: `eigVal` is the
eigenvalue array and `eigVec` the corresponding eigenvector matrix (a list of
rows). -/
structure EighResult where
  eigVal : List ℚ
  eigVec : List (List ℚ)

/-- `eig` (collating_tokengt.py lines 40-47): keeps the eigenvector matrix as
produced by the decomposition, and returns `np.sort(np.abs(np.real(EigVal)))`
as the eigenvalue array. -/
def eig (r : EighResult) : List (List ℚ) × List ℚ :=
  (r.eigVec, List.insertionSort (· ≤ ·) (r.eigVal.map (fun x => |x|)))

/-- `lap_eig` (collating_tokengt.py lines 50-60) builds the normalized
Laplacian `I - D^(-1/2) A D^(-1/2)` with third-party numpy arithmetic and
returns `eig` of its decomposition; with the decomposition modelled as the
oracle `r`, `lap_eig` is exactly `eig`. -/
def lap_eig (r : EighResult) : List (List ℚ) × List ℚ := eig r

/-- C10: `lap_eig` returns an eigenvalue array that is entrywise non-negative
(absolute values are taken) and sorted in non-decreasing order, while the
returned eigenvector matrix is exactly the one produced by the
eigendecomposition, not reordered to match the sorted eigenvalue array; the
eigenvalue array is a permutation of the absolute values of the decomposition
output. -/
theorem lap_eig_sorted_abs_eigenvalues (r : EighResult) :
    (lap_eig r).1 = r.eigVec ∧
    List.Sorted (· ≤ ·) (lap_eig r).2 ∧
    (∀ x ∈ (lap_eig r).2, 0 ≤ x) ∧
    (lap_eig r).2.Perm (r.eigVal.map (fun x => |x|)) := by
  refine ⟨rfl, List.sorted_insertionSort _ _, ?_, List.perm_insertionSort _ _⟩
  intro x hx
  have hmem :=
    (List.perm_insertionSort (· ≤ ·) (r.eigVal.map (fun y => |y|))).mem_iff.mp hx
  obtain ⟨y, _, rfl⟩ := List.mem_map.mp hmem
  exact abs_nonneg y

end TokenGT

namespace GnnTrain

/-- A Python exception raised by `main` in gnn/train.py before data loading. -/
inductive MainErr where
  | assertionError (msg : String)
  | typeError (msg : String)
deriving DecidableEq

/-- The CLI arguments of `main` relevant to its pre-data-loading validation;
an `Option` field is `none` when the argument was not supplied (argparse
default `None`). -/
structure GnnArgs where
  dataset : String
  datasetTargetName : Option String
  monitorLossName : Option String
  regressionLossFn : Option String
deriving DecidableEq

/-- The regression datasets listed at gnn/train.py line 117. -/
def REGRESSION_DATASETS : List String :=
  ["ESOL", "FreeSolv", "Lipo", "QM9", "DOCKSTRING", "ZINC", "PCQM4Mv2", "lrgb-pept-struct"]

/-- Python substring containment `needle in hay` on character lists. -/
def charsContain (needle hay : List Char) : Bool :=
  (List.range (hay.length + 1)).any (fun i => needle.isPrefixOf (hay.drop i))

/-- Python `needle in hay` for strings. -/
def pyInStr (needle hay : String) : Bool := charsContain needle.data hay.data

/-- gnn/train.py line 114:
`if monitor_loss_name == "MCC" or "MCC" in monitor_loss_name: monitor_loss_name = "Validation MCC"`.
When the argument is unset, `None == "MCC"` is `False` and `"MCC" in None`
raises `TypeError` (its Python message has the type name quoted; the quotes
are omitted here). -/
def mccAdjust (m : Option String) : Except MainErr (Option String) :=
  match m with
  | none => Except.error (MainErr.typeError "argument of type NoneType is not iterable")
  | some s =>
    if s == "MCC" || pyInStr "MCC" s then Except.ok (some "Validation MCC")
    else Except.ok (some s)

/-- Modelled from the spec: `validate_gnn_argparse_arguments` lives in
gnn/config.py, which is not under src/.  The spec describes the repository's
validation as "assertion-based validation of mutually-required CLI arguments",
so the call is modelled as either succeeding or raising an `AssertionError`;
its outcome is the oracle `res` (`none` = validation passed). -/
def validate_gnn_argparse_arguments (res : Option String) : Except MainErr Unit :=
  match res with
  | none => Except.ok ()
  | some msg => Except.error (MainErr.assertionError msg)

/-- `main` (gnn/train.py) from the argument validation (lines 85-91) through
the monitor-name adjustment (line 114) and the two dataset assertions (lines
117-121).  `Except.ok ()` means control reaches the data loading at line 124.
`seed_everything` (line 93) is a third-party call assumed to succeed. -/
def mainUpToDataLoading (validateRes : Option String) (a : GnnArgs) :
    Except MainErr Unit :=
  match validate_gnn_argparse_arguments validateRes with
  | Except.error e => Except.error e
  | Except.ok _ =>
    match mccAdjust a.monitorLossName with
    | Except.error e => Except.error e
    | Except.ok _ =>
      if REGRESSION_DATASETS.contains a.dataset && a.regressionLossFn.isNone then
        Except.error (MainErr.assertionError
          "A loss functions must be specified for regression tasks!")
      else if ["QM9", "DOCKSTRING"].contains a.dataset && a.datasetTargetName.isNone then
        Except.error (MainErr.assertionError
          "A target must be specified for QM9 and DOCKSTRING!")
      else Except.ok ()

theorem mccAdjust_some_isOk (s : String) : ∃ v, mccAdjust (some s) = Except.ok v := by
  simp only [mccAdjust]
  split
  · exact ⟨_, rfl⟩
  · exact ⟨_, rfl⟩

/-- C2 counterexample: with dataset ESOL, no regression loss function and no
monitor-loss-name argument (all argparse defaults), `main` fails at line 114
with a `TypeError` — not with the claimed `AssertionError` — before any data
loading. -/
theorem main_assertion_counterexample :
    REGRESSION_DATASETS.contains "ESOL" = true ∧
    (GnnArgs.mk "ESOL" none none none).regressionLossFn = none ∧
    mainUpToDataLoading none (GnnArgs.mk "ESOL" none none none) =
      Except.error (MainErr.typeError "argument of type NoneType is not iterable") :=
  ⟨rfl, rfl, rfl⟩

/-- C2 (amended): for every argument set whose dataset is a regression dataset
and whose regression loss function is unset, and likewise for QM9/DOCKSTRING
without a target name, `main` fails before any data loading; the failure is
the claimed `AssertionError` whenever the monitor-loss-name argument is set
(and the config validation itself passes), but it is a `TypeError` raised at
the line-114 monitor-name check when monitor-loss-name is unset. -/
theorem main_validation_amended (validateRes : Option String) (a : GnnArgs) :
    (REGRESSION_DATASETS.contains a.dataset = true → a.regressionLossFn = none →
      mainUpToDataLoading validateRes a ≠ Except.ok ()) ∧
    (["QM9", "DOCKSTRING"].contains a.dataset = true → a.datasetTargetName = none →
      mainUpToDataLoading validateRes a ≠ Except.ok ()) ∧
    (validateRes = none → a.monitorLossName = none →
      mainUpToDataLoading validateRes a =
        Except.error (MainErr.typeError "argument of type NoneType is not iterable")) ∧
    (validateRes = none → a.monitorLossName.isSome = true →
      (REGRESSION_DATASETS.contains a.dataset = true → a.regressionLossFn = none →
        mainUpToDataLoading validateRes a =
          Except.error (MainErr.assertionError
            "A loss functions must be specified for regression tasks!")) ∧
      (["QM9", "DOCKSTRING"].contains a.dataset = true → a.datasetTargetName = none →
        ∃ m, mainUpToDataLoading validateRes a =
          Except.error (MainErr.assertionError m))) := by
  cases validateRes with
  | some msg =>
    refine ⟨?_, ?_, ?_, ?_⟩
    · intro _ _
      simp [mainUpToDataLoading, validate_gnn_argparse_arguments]
    · intro _ _
      simp [mainUpToDataLoading, validate_gnn_argparse_arguments]
    · intro h
      exact absurd h (by simp)
    · intro h
      exact absurd h (by simp)
  | none =>
    cases hm : a.monitorLossName with
    | none =>
      have hrun : mainUpToDataLoading none a =
          Except.error (MainErr.typeError "argument of type NoneType is not iterable") := by
        unfold mainUpToDataLoading validate_gnn_argparse_arguments
        rw [hm]
        rfl
      refine ⟨fun _ _ => by simp [hrun], fun _ _ => by simp [hrun],
        fun _ _ => hrun, fun _ hs => ?_⟩
      simp at hs
    | some s =>
      obtain ⟨v, hv⟩ := mccAdjust_some_isOk s
      have hrun : mainUpToDataLoading none a =
          (if REGRESSION_DATASETS.contains a.dataset && a.regressionLossFn.isNone then
            Except.error (MainErr.assertionError
              "A loss functions must be specified for regression tasks!")
          else if ["QM9", "DOCKSTRING"].contains a.dataset && a.datasetTargetName.isNone then
            Except.error (MainErr.assertionError
              "A target must be specified for QM9 and DOCKSTRING!")
          else Except.ok ()) := by
        unfold mainUpToDataLoading validate_gnn_argparse_arguments
        rw [hm, hv]
      refine ⟨?_, ?_, ?_, ?_⟩
      · intro h1 h2
        rw [hrun, if_pos (show _ = true by rw [h1, h2]; rfl)]
        simp
      · intro h1 h2
        rw [hrun]
        by_cases hc : (REGRESSION_DATASETS.contains a.dataset && a.regressionLossFn.isNone) = true
        · rw [if_pos hc]
          simp
        · rw [if_neg hc, if_pos (show _ = true by rw [h1, h2]; rfl)]
          simp
      · intro _ hnone
        exact absurd hnone (by simp)
      · intro _ _
        constructor
        · intro h1 h2
          rw [hrun, if_pos (show _ = true by rw [h1, h2]; rfl)]
        · intro h1 h2
          rw [hrun]
          by_cases hc : (REGRESSION_DATASETS.contains a.dataset && a.regressionLossFn.isNone) = true
          · rw [if_pos hc]
            exact ⟨_, rfl⟩
          · rw [if_neg hc, if_pos (show _ = true by rw [h1, h2]; rfl)]
            exact ⟨_, rfl⟩

theorem main_validation_amended_witness :
    (mainUpToDataLoading none (GnnArgs.mk "QM9" none (some "val_total_loss") none) =
      Except.error (MainErr.assertionError
        "A loss functions must be specified for regression tasks!")) ∧
    (∃ m, mainUpToDataLoading none (GnnArgs.mk "QM9" none (some "val_total_loss") none) =
      Except.error (MainErr.assertionError m)) ∧
    (mainUpToDataLoading none (GnnArgs.mk "ESOL" none none none) =
      Except.error (MainErr.typeError "argument of type NoneType is not iterable")) :=
  ⟨((main_validation_amended none (GnnArgs.mk "QM9" none (some "val_total_loss") none)).2.2.2
      rfl rfl).1 rfl rfl,
   ((main_validation_amended none (GnnArgs.mk "QM9" none (some "val_total_loss") none)).2.2.2
      rfl rfl).2 rfl rfl,
   (main_validation_amended none (GnnArgs.mk "ESOL" none none none)).2.2.1 rfl rfl⟩

/-- A file-system operation performed by `main` in gnn/train.py. -/
inductive FileOp where
  | mkdirParents (path : String)
  | writeJson (path : String)
  | writeNpy (path : String)
deriving DecidableEq

/-- `os.path.join` for a directory and a relative name. -/
def pathJoin (a b : String) : String := a ++ "/" ++ b

/-- gnn/train.py line 156: `output_save_dir = os.path.join(out_path, run_name)`. -/
def output_save_dir (outPath runName : String) : String := pathJoin outPath runName

/-- The path written by a NumPy-save operation, if it is one. -/
def npyPath : FileOp → Option String
  | FileOp.writeNpy p => some p
  | _ => none

/-- The file-system operations of `main` (gnn/train.py): line 157 creates the
run output directory, line 159 writes the arguments JSON into it
(`save_gnn_arguments_to_json` is in gnn/config.py, not under src/; the name of
the JSON file it chooses inside the directory is the oracle `jsonFileName`),
and lines 231-237 save the three test NumPy arrays after training and the
final test evaluation. -/
def mainFileOps (outPath runName jsonFileName : String) : List FileOp :=
  [FileOp.mkdirParents (output_save_dir outPath runName),
   FileOp.writeJson (pathJoin (output_save_dir outPath runName) jsonFileName),
   FileOp.writeNpy (pathJoin (output_save_dir outPath runName) "test_y_pred.npy"),
   FileOp.writeNpy (pathJoin (output_save_dir outPath runName) "test_y_true.npy"),
   FileOp.writeNpy (pathJoin (output_save_dir outPath runName) "test_metrics.npy")]

theorem pathJoin_right_inj {d a b : String} (h : pathJoin d a = pathJoin d b) : a = b := by
  unfold pathJoin at h
  have hd : (d ++ "/" ++ a).data = (d ++ "/" ++ b).data := by rw [h]
  rw [String.data_append, String.data_append] at hd
  exact String.ext (List.append_cancel_left hd)

/-- C7: after training and the final test evaluation, `main` persists exactly
three NumPy files, named test_y_pred.npy, test_y_true.npy and
test_metrics.npy, all inside the run output directory `out_path/run_name`,
and that directory is created (first operation) earlier in the same run; the
three paths are pairwise distinct. -/
theorem main_test_artifacts (outPath runName jsonFileName : String) :
    (mainFileOps outPath runName jsonFileName).filterMap npyPath =
      [pathJoin (output_save_dir outPath runName) "test_y_pred.npy",
       pathJoin (output_save_dir outPath runName) "test_y_true.npy",
       pathJoin (output_save_dir outPath runName) "test_metrics.npy"] ∧
    (∃ rest, mainFileOps outPath runName jsonFileName =
      FileOp.mkdirParents (output_save_dir outPath runName) :: rest) ∧
    List.Pairwise (fun p q => p ≠ q)
      ((mainFileOps outPath runName jsonFileName).filterMap npyPath) := by
  refine ⟨rfl, ⟨_, rfl⟩, ?_⟩
  have hne : ∀ a b : String, a.data ≠ b.data →
      pathJoin (output_save_dir outPath runName) a ≠
        pathJoin (output_save_dir outPath runName) b := by
    intro a b hab hcontra
    exact hab (congrArg String.data (pathJoin_right_inj hcontra))
  have hlist : (mainFileOps outPath runName jsonFileName).filterMap npyPath =
      [pathJoin (output_save_dir outPath runName) "test_y_pred.npy",
       pathJoin (output_save_dir outPath runName) "test_y_true.npy",
       pathJoin (output_save_dir outPath runName) "test_metrics.npy"] := rfl
  rw [hlist]
  refine List.pairwise_cons.mpr ⟨?_, List.pairwise_cons.mpr ⟨?_,
    List.pairwise_cons.mpr ⟨?_, List.Pairwise.nil⟩⟩⟩
  · intro q hq
    rw [List.mem_cons, List.mem_singleton] at hq
    rcases hq with rfl | rfl
    · exact hne _ _ (by decide)
    · exact hne _ _ (by decide)
  · intro q hq
    rw [List.mem_singleton] at hq
    subst hq
    exact hne _ _ (by decide)
  · intro q hq
    exact absurd hq (List.not_mem_nil q)

end GnnTrain

namespace CustomTrain

/-- A Python exception, as relevant to the optional-dependency checks. -/
inductive PyExc where
  | importError (msg : String)
  | otherError (msg : String)
deriving DecidableEq

/-- custom_train.py lines 153-157: when `cfg.wandb.use` is set, `import wandb`
is attempted and any failure (bare `except:`) is turned into
`ImportError("WandB is not installed.")`; `importSucceeds` is the oracle for
whether the third-party import works. -/
def wandb_import_check (wandbUse : Bool) (importSucceeds : Bool) : Except PyExc Unit :=
  if wandbUse then
    if importSucceeds then Except.ok ()
    else Except.error (PyExc.importError "WandB is not installed.")
  else Except.ok ()

end CustomTrain

namespace MasterLoader

/-- master_loader.py lines 385-391 (`preformat_OGB_PCQM4Mv2`): the import of
`PygPCQM4Mv2Dataset` is attempted; on any exception `e` a descriptive error
line is logged and `e` is re-raised.  Returns the logged lines and the
outcome; `importResult` is the oracle for the third-party import. -/
def preformat_OGB_PCQM4Mv2_import (importResult : Except CustomTrain.PyExc Unit) :
    List String × Except CustomTrain.PyExc Unit :=
  match importResult with
  | Except.ok _ => ([], Except.ok ())
  | Except.error e =>
    (["ERROR: Failed to import PygPCQM4Mv2Dataset, make sure RDKit is installed."],
     Except.error e)

end MasterLoader

namespace CustomTrain

/-- C6: when an optional dependency is missing the program raises an import
error with a descriptive message: with `cfg.wandb.use` set and the wandb
module failing to import, `custom_train` raises
`ImportError("WandB is not installed.")`;
and when importing the PCQM4Mv2 dataset class fails with an import error
(RDKit missing), `preformat_OGB_PCQM4Mv2` logs a descriptive error line and
re-raises that import error. -/
theorem optional_dependency_import_errors (importSucceeds : Bool) (msg : String) :
    (importSucceeds = false →
      wandb_import_check true importSucceeds =
        Except.error (PyExc.importError "WandB is not installed.")) ∧
    MasterLoader.preformat_OGB_PCQM4Mv2_import (Except.error (PyExc.importError msg)) =
      (["ERROR: Failed to import PygPCQM4Mv2Dataset, make sure RDKit is installed."],
       Except.error (PyExc.importError msg)) := by
  constructor
  · intro h
    rw [h]
    rfl
  · rfl

theorem optional_dependency_import_errors_witness :
    wandb_import_check true false =
      Except.error (PyExc.importError "WandB is not installed.") ∧
    MasterLoader.preformat_OGB_PCQM4Mv2_import
        (Except.error (PyExc.importError "No module named ogb.lsc")) =
      (["ERROR: Failed to import PygPCQM4Mv2Dataset, make sure RDKit is installed."],
       Except.error (PyExc.importError "No module named ogb.lsc")) :=
  ⟨(optional_dependency_import_errors false "No module named ogb.lsc").1 rfl,
   (optional_dependency_import_errors false "No module named ogb.lsc").2⟩

end CustomTrain

namespace MasterLoader

/-- Python `s.startswith(p)` via character lists. -/
def pyStartsWith (s p : String) : Bool := p.data.isPrefixOf s.data

/-- `key.split('_', 1)[1]` for a key that starts with `posenc_`: everything
after the first underscore, i.e. the key without its 7-character prefix. -/
def peNameOf (key : String) : String := String.mk (key.data.drop 7)

/-- The `pe_enabled_list` scan of `load_dataset_master` (master_loader.py
lines 96-103): a configuration is modelled as the list of its (key, enable)
pairs; a key contributes iff it starts with `posenc_`, is enabled, and does
not start with `posenc_ER`. -/
def pe_enabled_list (posencKeys : List (String × Bool)) : List String :=
  (posencKeys.filter
    (fun kv => pyStartsWith kv.1 "posenc_" && kv.2 && !(pyStartsWith kv.1 "posenc_ER"))).map
    (fun kv => peNameOf kv.1)

/-- master_loader.py line 104:
`os.path.join(cfg.dataset.dir, f'{cfg.dataset.name}_precomputed_posenc.pt')`. -/
def precomputed_path (dir name : String) : String :=
  dir ++ "/" ++ name ++ "_precomputed_posenc.pt"

/-- What the caching block of `load_dataset_master` does to the dataset. -/
inductive PosencAction where
  | loadFrom (path : String)
  | computeAndSaveTo (path : String)
  | noPrecompute
deriving DecidableEq

/-- The caching decision of `load_dataset_master` (master_loader.py lines
104-133): if the precomputed file exists, load it; otherwise, if
`pe_enabled_list` is non-empty, compute the positional-encoding statistics for
all graphs and save the transformed dataset to the precomputed path; otherwise
do nothing. -/
def posenc_cache_step (dir name : String) (fileExists : Bool)
    (posencKeys : List (String × Bool)) : PosencAction :=
  if fileExists then PosencAction.loadFrom (precomputed_path dir name)
  else if pe_enabled_list posencKeys ≠ [] then
    PosencAction.computeAndSaveTo (precomputed_path dir name)
  else PosencAction.noPrecompute

/-- The spec reading of "at least one positional encoding is enabled in the
configuration" (the claim's words): some `posenc_*` key has its enable flag
set.  Declared separately from the code's filter so the two can be compared. -/
def specPosencEnabled (posencKeys : List (String × Bool)) : Prop :=
  ∃ kv ∈ posencKeys, pyStartsWith kv.1 "posenc_" = true ∧ kv.2 = true

/-- C3 counterexample: with only the effective-resistance encoding
`posenc_ERN` enabled and no precomputed file on disk, a positional encoding is
enabled in the configuration, yet the caching block computes nothing and saves
no file (the scan skips every `posenc_ER*` key). -/
theorem posenc_cache_counterexample :
    specPosencEnabled [("posenc_ERN", true)] ∧
    posenc_cache_step "datasets" "ZINC" false [("posenc_ERN", true)] =
      PosencAction.noPrecompute := by
  constructor
  · exact ⟨("posenc_ERN", true), by decide, by decide, rfl⟩
  · decide

/-- C3 (amended): if the precomputed file exists the dataset is loaded from
exactly that path and no statistics are computed; otherwise the statistics are
computed and saved to exactly that path if and only if at least one positional
encoding other than the effective-resistance ones (keys starting `posenc_ER`)
is enabled in the configuration. -/
theorem posenc_cache_spec (dir name : String) (posencKeys : List (String × Bool)) :
    posenc_cache_step dir name true posencKeys =
      PosencAction.loadFrom (precomputed_path dir name) ∧
    (posenc_cache_step dir name false posencKeys =
        PosencAction.computeAndSaveTo (precomputed_path dir name) ↔
      pe_enabled_list posencKeys ≠ []) ∧
    (pe_enabled_list posencKeys ≠ [] ↔
      ∃ kv ∈ posencKeys, pyStartsWith kv.1 "posenc_" = true ∧ kv.2 = true ∧
        pyStartsWith kv.1 "posenc_ER" = false) := by
  refine ⟨rfl, ?_, ?_⟩
  · unfold posenc_cache_step
    rw [if_neg (by simp : ¬ false = true)]
    by_cases h : pe_enabled_list posencKeys ≠ []
    · rw [if_pos h]
      simp [h]
    · rw [if_neg h]
      simp [h]
  · unfold pe_enabled_list
    rw [Ne, List.map_eq_nil_iff, List.filter_eq_nil_iff]
    push_neg
    constructor
    · rintro ⟨kv, hmem, hp⟩
      rw [Bool.and_eq_true, Bool.and_eq_true] at hp
      refine ⟨kv, hmem, hp.1.1, hp.1.2, ?_⟩
      have h3 := hp.2
      rw [Bool.not_eq_true'] at h3
      exact h3
    · rintro ⟨kv, hmem, h1, h2, h3⟩
      refine ⟨kv, hmem, ?_⟩
      rw [Bool.and_eq_true, Bool.and_eq_true]
      exact ⟨⟨h1, h2⟩, by rw [h3]; rfl⟩

end MasterLoader

namespace CustomTrain

/-- An action of the `train_epoch` loop body (custom_train.py lines 29-66)
that touches gradients or the optimizer, tagged with the zero-based loader
iteration it happens in. -/
inductive TrainAction where
  | backward (itr : ℕ)
  | clipGrad (itr : ℕ) (maxNorm : ℚ)
  | optStep (itr : ℕ)
  | scalerUpdate (itr : ℕ)
  | zeroGrad (itr : ℕ)
deriving DecidableEq

/-- custom_train.py line 57:
`((iter + 1) % batch_accumulation == 0) or (iter + 1 == len(loader))`. -/
def stepNow (batchAccumulation len itr : ℕ) : Bool :=
  ((itr + 1) % batchAccumulation == 0) || (itr + 1 == len)

/-- The gradient/optimizer actions of one loader iteration of `train_epoch`
(custom_train.py lines 54-64): always a backward pass; then, exactly when the
accumulation condition fires, optional clipping to max-norm 1.0 (iff
`cfg.optim.clip_grad_norm`), the optimizer step, the scaler update and the
gradient zeroing. -/
def trainIterActions (clipGradNorm : Bool) (batchAccumulation len itr : ℕ) :
    List TrainAction :=
  TrainAction.backward itr ::
    (if stepNow batchAccumulation len itr then
      (if clipGradNorm then [TrainAction.clipGrad itr 1] else []) ++
        [TrainAction.optStep itr, TrainAction.scalerUpdate itr, TrainAction.zeroGrad itr]
    else [])

/-- The full action trace of `train_epoch` over a loader with `len` batches. -/
def train_epoch_trace (clipGradNorm : Bool) (batchAccumulation len : ℕ) :
    List TrainAction :=
  (List.range len).flatMap (trainIterActions clipGradNorm batchAccumulation len)

theorem stepNow_iff (ba len i : ℕ) :
    stepNow ba len i = true ↔ ((i + 1) % ba = 0 ∨ i + 1 = len) := by
  unfold stepNow
  rw [Bool.or_eq_true, beq_iff_eq, beq_iff_eq]

theorem optStep_mem_iter (clip : Bool) (ba len i j : ℕ) :
    TrainAction.optStep j ∈ trainIterActions clip ba len i ↔
      stepNow ba len i = true ∧ j = i := by
  unfold trainIterActions
  by_cases hs : stepNow ba len i = true <;> by_cases hc : clip = true <;>
    simp [hs, hc]

theorem zeroGrad_mem_iter (clip : Bool) (ba len i j : ℕ) :
    TrainAction.zeroGrad j ∈ trainIterActions clip ba len i ↔
      stepNow ba len i = true ∧ j = i := by
  unfold trainIterActions
  by_cases hs : stepNow ba len i = true <;> by_cases hc : clip = true <;>
    simp [hs, hc]

theorem clipGrad_mem_iter (clip : Bool) (ba len i j : ℕ) (q : ℚ) :
    TrainAction.clipGrad j q ∈ trainIterActions clip ba len i ↔
      stepNow ba len i = true ∧ clip = true ∧ j = i ∧ q = 1 := by
  unfold trainIterActions
  by_cases hs : stepNow ba len i = true <;> by_cases hc : clip = true <;>
    simp [hs, hc, and_comm]

/-- C4: in `train_epoch` the optimizer is stepped and its gradients zeroed at
exactly those loader iterations whose one-based index is a multiple of
`batch_accumulation` or equal to the number of batches; clipping to max-norm
1.0 happens at exactly those same iterations if and only if
`cfg.optim.clip_grad_norm` is set, and immediately precedes the optimizer
step.  `0 < ba` scopes the statement to Python-valid configurations (with
`batch_accumulation = 0` line 57 would raise `ZeroDivisionError`). -/
theorem train_epoch_grad_accumulation (clip : Bool) (ba len itr : ℕ) (_hba : 0 < ba) :
    (TrainAction.optStep itr ∈ train_epoch_trace clip ba len ↔
      itr < len ∧ ((itr + 1) % ba = 0 ∨ itr + 1 = len)) ∧
    (TrainAction.zeroGrad itr ∈ train_epoch_trace clip ba len ↔
      itr < len ∧ ((itr + 1) % ba = 0 ∨ itr + 1 = len)) ∧
    (∀ q : ℚ, TrainAction.clipGrad itr q ∈ train_epoch_trace clip ba len ↔
      clip = true ∧ q = 1 ∧ itr < len ∧ ((itr + 1) % ba = 0 ∨ itr + 1 = len)) ∧
    (clip = true → itr < len → ((itr + 1) % ba = 0 ∨ itr + 1 = len) →
      ∃ pre post, train_epoch_trace clip ba len =
        pre ++ [TrainAction.clipGrad itr 1, TrainAction.optStep itr] ++ post) := by
  refine ⟨?_, ?_, ?_, ?_⟩
  · rw [train_epoch_trace, List.mem_flatMap]
    constructor
    · rintro ⟨i, hi, hmem⟩
      rw [List.mem_range] at hi
      rw [optStep_mem_iter] at hmem
      obtain ⟨hs, rfl⟩ := hmem
      exact ⟨hi, (stepNow_iff ba len itr).mp hs⟩
    · rintro ⟨hi, hcond⟩
      exact ⟨itr, List.mem_range.mpr hi,
        (optStep_mem_iter clip ba len itr itr).mpr ⟨(stepNow_iff ba len itr).mpr hcond, rfl⟩⟩
  · rw [train_epoch_trace, List.mem_flatMap]
    constructor
    · rintro ⟨i, hi, hmem⟩
      rw [List.mem_range] at hi
      rw [zeroGrad_mem_iter] at hmem
      obtain ⟨hs, rfl⟩ := hmem
      exact ⟨hi, (stepNow_iff ba len itr).mp hs⟩
    · rintro ⟨hi, hcond⟩
      exact ⟨itr, List.mem_range.mpr hi,
        (zeroGrad_mem_iter clip ba len itr itr).mpr ⟨(stepNow_iff ba len itr).mpr hcond, rfl⟩⟩
  · intro q
    rw [train_epoch_trace, List.mem_flatMap]
    constructor
    · rintro ⟨i, hi, hmem⟩
      rw [List.mem_range] at hi
      rw [clipGrad_mem_iter] at hmem
      obtain ⟨hs, hc, rfl, rfl⟩ := hmem
      exact ⟨hc, rfl, hi, (stepNow_iff ba len itr).mp hs⟩
    · rintro ⟨hc, rfl, hi, hcond⟩
      exact ⟨itr, List.mem_range.mpr hi,
        (clipGrad_mem_iter clip ba len itr itr 1).mpr
          ⟨(stepNow_iff ba len itr).mpr hcond, hc, rfl, rfl⟩⟩
  · intro hc hi hcond
    have hs : stepNow ba len itr = true := (stepNow_iff ba len itr).mpr hcond
    have hiter : trainIterActions clip ba len itr =
        [TrainAction.backward itr] ++
          [TrainAction.clipGrad itr 1, TrainAction.optStep itr] ++
          [TrainAction.scalerUpdate itr, TrainAction.zeroGrad itr] := by
      unfold trainIterActions
      rw [if_pos hs, hc]
      rfl
    have hmem : trainIterActions clip ba len itr ∈
        (List.range len).map (trainIterActions clip ba len) :=
      List.mem_map_of_mem _ (List.mem_range.mpr hi)
    have hinf : trainIterActions clip ba len itr <:+: train_epoch_trace clip ba len := by
      rw [train_epoch_trace, List.flatMap_def]
      exact List.infix_of_mem_flatten hmem
    have hinner : [TrainAction.clipGrad itr 1, TrainAction.optStep itr] <:+:
        trainIterActions clip ba len itr := by
      rw [hiter]
      exact ⟨[TrainAction.backward itr],
        [TrainAction.scalerUpdate itr, TrainAction.zeroGrad itr], rfl⟩
    obtain ⟨pre, post, hdec⟩ := hinner.trans hinf
    exact ⟨pre, post, by rw [← hdec, List.append_assoc]⟩

theorem train_epoch_grad_accumulation_witness :
    (TrainAction.optStep 3 ∈ train_epoch_trace true 4 5 ↔
      3 < 5 ∧ ((3 + 1) % 4 = 0 ∨ 3 + 1 = 5)) ∧
    (TrainAction.zeroGrad 3 ∈ train_epoch_trace true 4 5 ↔
      3 < 5 ∧ ((3 + 1) % 4 = 0 ∨ 3 + 1 = 5)) ∧
    (∀ q : ℚ, TrainAction.clipGrad 3 q ∈ train_epoch_trace true 4 5 ↔
      true = true ∧ q = 1 ∧ 3 < 5 ∧ ((3 + 1) % 4 = 0 ∨ 3 + 1 = 5)) ∧
    (true = true → 3 < 5 → ((3 + 1) % 4 = 0 ∨ 3 + 1 = 5) →
      ∃ pre post, train_epoch_trace true 4 5 =
        pre ++ [TrainAction.clipGrad 3 1, TrainAction.optStep 3] ++ post) :=
  train_epoch_grad_accumulation true 4 5 3 (by decide)

end CustomTrain

namespace CustomTrain

/-- Configuration and oracles of the `custom_train` epoch loop
(custom_train.py lines 172-251), run with the standard three
loggers/loaders (train/val/test).  `isEval e` models the third-party graphgym
`is_eval_epoch(e)`; `computeBest e` is the oracle for the value the code
assigns to `best_epoch` when it recomputes it at the end of evaluation epoch
`e` (lines 201/206, a numpy argmin/argmax over the validation history);
`patience` is `cfg.optim.early_stopping_patience`, `maxEpoch` is
`cfg.optim.max_epoch`, and `startEpoch` the epoch training starts from
(0 for a fresh run, the resume epoch under `cfg.train.auto_resume`). -/
structure TrainCfg where
  isEval : ℕ → Bool
  computeBest : ℕ → ℤ
  patience : ℤ
  maxEpoch : ℕ
  startEpoch : ℕ

/-- How a run of the `custom_train` epoch loop ends. -/
inductive Outcome where
  | maxEpochs
  | earlyStopped (epoch : ℕ)
  | indexError (epoch : ℕ)
  | nameError (epoch : ℕ)
deriving DecidableEq

/-- The `custom_train` epoch loop (custom_train.py lines 172-251), one call
per epoch, with `fuel` epochs left before `cfg.optim.max_epoch`.  State:
`havePerf` records whether the per-split history `perf[i]` is non-empty (an
entry is appended in every completed epoch), `best` the value of the Python
variable `best_epoch` (`none` = never assigned).  Mirror of the body:
* on a non-evaluation epoch with empty history, line 183
  `perf[i].append(perf[i][-1])` raises IndexError;
* an evaluation epoch assigns `best_epoch` (lines 200-206);
* the end-of-epoch logging (lines 234-241) reads `best_epoch`
  unconditionally — a NameError if it was never assigned;
* line 249 breaks out of the loop when
  `best_epoch > -1 and cur_epoch - best_epoch > patience`.
Returns the executed epochs and the outcome. -/
def loopAux (c : TrainCfg) : ℕ → ℕ → Bool → Option ℤ → List ℕ × Outcome
  | 0, _, _, _ => ([], Outcome.maxEpochs)
  | fuel + 1, cur, havePerf, best =>
    if c.isEval cur then
      let b := c.computeBest cur
      if b > -1 ∧ (cur : ℤ) - b > c.patience then ([cur], Outcome.earlyStopped cur)
      else
        let r := loopAux c fuel (cur + 1) true (some b)
        (cur :: r.1, r.2)
    else if havePerf = false then ([cur], Outcome.indexError cur)
    else
      match best with
      | none => ([cur], Outcome.nameError cur)
      | some b =>
        if b > -1 ∧ (cur : ℤ) - b > c.patience then ([cur], Outcome.earlyStopped cur)
        else
          let r := loopAux c fuel (cur + 1) havePerf (some b)
          (cur :: r.1, r.2)

/-- A run of the `custom_train` epoch loop: executed epochs and outcome. -/
def custom_train_run (c : TrainCfg) : List ℕ × Outcome :=
  loopAux c (c.maxEpoch - c.startEpoch) c.startEpoch false none

/-- The value of the Python variable `best_epoch` at the end of epoch
`cur + k`, for a loop segment entered at epoch `cur` with `best_epoch = b`. -/
def bestGo (c : TrainCfg) (cur : ℕ) (b : ℤ) : ℕ → ℤ
  | 0 => if c.isEval cur then c.computeBest cur else b
  | k + 1 =>
    if c.isEval (cur + (k + 1)) then c.computeBest (cur + (k + 1)) else bestGo c cur b k

/-- The line-249 early-stopping condition at the end of epoch `cur + k`. -/
def stopCondGo (c : TrainCfg) (cur : ℕ) (b : ℤ) (k : ℕ) : Prop :=
  bestGo c cur b k > -1 ∧ ((cur + k : ℕ) : ℤ) - bestGo c cur b k > c.patience

/-- The loop from any state in which the validation history is non-empty and
`best_epoch` holds `b` — the state after every completed epoch. -/
def loopGo (c : TrainCfg) : ℕ → ℕ → ℤ → List ℕ × Outcome
  | 0, _, _ => ([], Outcome.maxEpochs)
  | fuel + 1, cur, b =>
    if bestGo c cur b 0 > -1 ∧ (cur : ℤ) - bestGo c cur b 0 > c.patience then
      ([cur], Outcome.earlyStopped cur)
    else
      (cur :: (loopGo c fuel (cur + 1) (bestGo c cur b 0)).1,
       (loopGo c fuel (cur + 1) (bestGo c cur b 0)).2)

theorem bestGo_shift (c : TrainCfg) (cur : ℕ) (b : ℤ) (k : ℕ) :
    bestGo c cur b (k + 1) = bestGo c (cur + 1) (bestGo c cur b 0) k := by
  induction k with
  | zero => rfl
  | succ k ih =>
    show (if c.isEval (cur + (k + 1 + 1)) then c.computeBest (cur + (k + 1 + 1))
          else bestGo c cur b (k + 1)) = _
    rw [ih]
    have harith : cur + (k + 1 + 1) = cur + 1 + (k + 1) := by omega
    rw [harith]
    rfl

theorem stopCondGo_zero (c : TrainCfg) (cur : ℕ) (b : ℤ) :
    stopCondGo c cur b 0 ↔
      (bestGo c cur b 0 > -1 ∧ (cur : ℤ) - bestGo c cur b 0 > c.patience) :=
  Iff.rfl

theorem stopCondGo_shift (c : TrainCfg) (cur : ℕ) (b : ℤ) (k : ℕ) :
    stopCondGo c cur b (k + 1) ↔ stopCondGo c (cur + 1) (bestGo c cur b 0) k := by
  unfold stopCondGo
  rw [bestGo_shift]
  have harith : cur + (k + 1) = cur + 1 + k := by omega
  rw [harith]

theorem loopAux_true_some (c : TrainCfg) :
    ∀ fuel cur b, loopAux c fuel cur true (some b) = loopGo c fuel cur b := by
  intro fuel
  induction fuel with
  | zero => intro cur b; rfl
  | succ f ih =>
    intro cur b
    by_cases he : c.isEval cur = true
    · have hb : bestGo c cur b 0 = c.computeBest cur := by
        unfold bestGo; rw [if_pos he]
      rw [loopAux, loopGo, if_pos he, hb]
      simp [ih]
    · have hb : bestGo c cur b 0 = b := by
        unfold bestGo; rw [if_neg he]
      rw [loopAux, loopGo, if_neg he, hb]
      simp [ih]

theorem custom_train_run_eq_loopGo (c : TrainCfg) (h : c.isEval c.startEpoch = true) :
    custom_train_run c = loopGo c (c.maxEpoch - c.startEpoch) c.startEpoch 0 := by
  unfold custom_train_run
  cases hfuel : c.maxEpoch - c.startEpoch with
  | zero => rfl
  | succ f =>
    have hb : bestGo c c.startEpoch 0 0 = c.computeBest c.startEpoch := by
      unfold bestGo; rw [if_pos h]
    rw [loopAux, loopGo, if_pos h, hb]
    simp [loopAux_true_some]

/-- Full characterization of a `loopGo` segment: the executed epochs are
consecutive, the outcome is completion or an early stop, completion means all
`fuel` epochs ran with the stop condition never holding, and an early stop
happens exactly at the first epoch whose end-of-epoch stop condition holds. -/
def loopGoSpec (c : TrainCfg) (fuel cur : ℕ) (b : ℤ) : Prop :=
  (loopGo c fuel cur b).1 =
    List.range' cur (loopGo c fuel cur b).1.length ∧
  ((loopGo c fuel cur b).2 = Outcome.maxEpochs ∨
    ∃ e, (loopGo c fuel cur b).2 = Outcome.earlyStopped e) ∧
  ((loopGo c fuel cur b).2 = Outcome.maxEpochs →
    (loopGo c fuel cur b).1.length = fuel ∧
    ∀ k < (loopGo c fuel cur b).1.length, ¬ stopCondGo c cur b k) ∧
  (∀ e, (loopGo c fuel cur b).2 = Outcome.earlyStopped e →
    0 < (loopGo c fuel cur b).1.length ∧
    (loopGo c fuel cur b).1.length ≤ fuel ∧
    e = cur + ((loopGo c fuel cur b).1.length - 1) ∧
    stopCondGo c cur b ((loopGo c fuel cur b).1.length - 1) ∧
    ∀ k, k + 1 < (loopGo c fuel cur b).1.length → ¬ stopCondGo c cur b k)

theorem loopGo_spec (c : TrainCfg) :
    ∀ fuel cur b, loopGoSpec c fuel cur b := by
  intro fuel
  induction fuel with
  | zero =>
    intro cur b
    refine ⟨rfl, Or.inl rfl, fun _ => ⟨rfl, fun k hk => absurd hk (by simp [loopGo])⟩,
      fun e he => ?_⟩
    exact absurd he (by simp [loopGo])
  | succ f ih =>
    intro cur b
    by_cases hstop : bestGo c cur b 0 > -1 ∧ (cur : ℤ) - bestGo c cur b 0 > c.patience
    · have hrun : loopGo c (f + 1) cur b = ([cur], Outcome.earlyStopped cur) := by
        rw [loopGo, if_pos hstop]
      refine ⟨?_, ?_, ?_, ?_⟩
      · rw [hrun]; rfl
      · rw [hrun]; exact Or.inr ⟨cur, rfl⟩
      · rw [hrun]; intro hcontra; cases hcontra
      · intro e he
        rw [hrun] at he ⊢
        have he1 : Outcome.earlyStopped cur = Outcome.earlyStopped e := he
        injection he1 with he2
        subst he2
        refine ⟨by simp, by simp only [List.length_singleton]; omega, by simp, ?_, ?_⟩
        · show stopCondGo c cur b 0
          rw [stopCondGo_zero]
          exact hstop
        · intro k hk
          exact absurd hk (by simp)
    · have hrun : loopGo c (f + 1) cur b =
          (cur :: (loopGo c f (cur + 1) (bestGo c cur b 0)).1,
           (loopGo c f (cur + 1) (bestGo c cur b 0)).2) := by
        rw [loopGo, if_neg hstop]
      obtain ⟨ih1, ih2, ih3, ih4⟩ := ih (cur + 1) (bestGo c cur b 0)
      refine ⟨?_, ?_, ?_, ?_⟩
      · rw [hrun]
        show cur :: (loopGo c f (cur + 1) (bestGo c cur b 0)).1 =
          List.range' cur ((loopGo c f (cur + 1) (bestGo c cur b 0)).1.length + 1)
        rw [List.range'_succ, ← ih1]
      · rw [hrun]
        exact ih2
      · rw [hrun]
        intro hmax
        obtain ⟨hlen, hnostop⟩ := ih3 hmax
        refine ⟨by simp [hlen], ?_⟩
        intro k hk
        cases k with
        | zero =>
          rw [stopCondGo_zero]
          exact hstop
        | succ j =>
          rw [stopCondGo_shift]
          apply hnostop
          simp at hk
          omega
      · rw [hrun]
        intro e he
        obtain ⟨hpos, hle, heq, hstopAt, hnostop⟩ := ih4 e he
        have hlen1 : (cur :: (loopGo c f (cur + 1) (bestGo c cur b 0)).1).length =
            (loopGo c f (cur + 1) (bestGo c cur b 0)).1.length + 1 := rfl
        refine ⟨by simp, by simp; omega, ?_, ?_, ?_⟩
        · rw [hlen1]
          omega
        · rw [hlen1]
          have hk : (loopGo c f (cur + 1) (bestGo c cur b 0)).1.length + 1 - 1 =
              ((loopGo c f (cur + 1) (bestGo c cur b 0)).1.length - 1) + 1 := by omega
          rw [hk, stopCondGo_shift]
          exact hstopAt
        · rw [hlen1]
          intro k hk
          cases k with
          | zero =>
            rw [stopCondGo_zero]
            exact hstop
          | succ j =>
            rw [stopCondGo_shift]
            apply hnostop
            omega

end CustomTrain

namespace CustomTrain

/-- The early-stopping condition of line 249 at the end of the `k`-th executed
epoch of a run (epoch `startEpoch + k`); for runs whose first executed epoch is
an evaluation epoch the dummy initial `best_epoch` value 0 is never read. -/
def stopCondAt (c : TrainCfg) (k : ℕ) : Prop := stopCondGo c c.startEpoch 0 k

/-- The property C1 asserts of a run: epochs execute consecutively from
`startEpoch`; the run ends either by completing or by early stopping (never by
an exception); it completes exactly when the stop condition held at the end of
no executed epoch, in which case all `maxEpoch - startEpoch` epochs ran; and
an early stop happens exactly at the first epoch whose end-of-epoch stop
condition (`best_epoch > -1` and `cur_epoch - best_epoch > patience`) holds,
with no further epoch started. -/
def earlyStopCharacterization (c : TrainCfg) : Prop :=
  (custom_train_run c).1 =
    List.range' c.startEpoch (custom_train_run c).1.length ∧
  ((custom_train_run c).2 = Outcome.maxEpochs ∨
    ∃ e, (custom_train_run c).2 = Outcome.earlyStopped e) ∧
  ((custom_train_run c).2 = Outcome.maxEpochs →
    (custom_train_run c).1.length = c.maxEpoch - c.startEpoch ∧
    ∀ k < (custom_train_run c).1.length, ¬ stopCondAt c k) ∧
  (∀ e, (custom_train_run c).2 = Outcome.earlyStopped e →
    0 < (custom_train_run c).1.length ∧
    (custom_train_run c).1.length ≤ c.maxEpoch - c.startEpoch ∧
    e = c.startEpoch + ((custom_train_run c).1.length - 1) ∧
    stopCondAt c ((custom_train_run c).1.length - 1) ∧
    ∀ k, k + 1 < (custom_train_run c).1.length → ¬ stopCondAt c k)

/-- C1 (amended): provided the first executed epoch is an evaluation epoch —
true in particular for every run starting from epoch 0, since
`is_eval_epoch(0)` holds — `custom_train` never continues more than the
early-stopping patience window past the recorded best validation epoch: at the
end of every epoch, if `best_epoch > -1` and the current epoch exceeds it by
strictly more than `cfg.optim.early_stopping_patience` the loop terminates
before starting another epoch, and otherwise it continues until
`cfg.optim.max_epoch` epochs have run. -/
theorem custom_train_early_stopping (c : TrainCfg)
    (h : c.isEval c.startEpoch = true) : earlyStopCharacterization c := by
  unfold earlyStopCharacterization stopCondAt
  rw [custom_train_run_eq_loopGo c h]
  exact loopGo_spec c (c.maxEpoch - c.startEpoch) c.startEpoch 0

/-- A resumed run used as C1's counterexample: checkpoint resume at epoch 3
with `eval_period = 7` and `max_epoch = 5`, so graphgym's
`is_eval_epoch(e) = ((e+1) % eval_period == 0 or e == 0 or e+1 == max_epoch)`
is false at the first executed epoch. -/
def cfgResume3 : TrainCfg where
  isEval e := decide ((e + 1) % 7 = 0 ∨ e = 0 ∨ e + 1 = 5)
  computeBest _ := 0
  patience := 10
  maxEpoch := 5
  startEpoch := 3

/-- C1 counterexample: on the resumed run `cfgResume3` the loop executes only
epoch 3 and dies with an IndexError (line 183 `perf[i].append(perf[i][-1])` on
an empty history) — although the early-stopping condition held at the end of
no epoch, the run does not continue until `max_epoch` epochs have run, so the
claim's "otherwise it continues until cfg.optim.max_epoch epochs have run" is
false as stated for every run. -/
theorem custom_train_early_stopping_counterexample :
    custom_train_run cfgResume3 = ([3], Outcome.indexError 3) ∧
    cfgResume3.maxEpoch - cfgResume3.startEpoch = 2 ∧
    (custom_train_run cfgResume3).1.length ≠
      cfgResume3.maxEpoch - cfgResume3.startEpoch ∧
    ¬ stopCondAt cfgResume3 0 := by
  refine ⟨rfl, rfl, by decide, ?_⟩
  unfold stopCondAt stopCondGo bestGo
  decide

/-- A fresh run (start epoch 0, `eval_period = 2`, `max_epoch = 4`,
patience 1, best always epoch 0) that stops early at epoch 2. -/
def cfgFresh : TrainCfg where
  isEval e := decide ((e + 1) % 2 = 0 ∨ e = 0 ∨ e + 1 = 4)
  computeBest _ := 0
  patience := 1
  maxEpoch := 4
  startEpoch := 0

theorem custom_train_early_stopping_witness :
    cfgFresh.isEval cfgFresh.startEpoch = true ∧ earlyStopCharacterization cfgFresh :=
  ⟨by decide, custom_train_early_stopping cfgFresh (by decide)⟩

/-- Whether an outcome is the unbound-`best_epoch` NameError. -/
def isNameError : Outcome → Bool
  | Outcome.nameError _ => true
  | _ => false

theorem loopAux_no_nameError (c : TrainCfg) :
    ∀ fuel cur,
      isNameError (loopAux c fuel cur false none).2 = false ∧
      ∀ b, isNameError (loopAux c fuel cur true (some b)).2 = false := by
  intro fuel
  induction fuel with
  | zero => intro cur; exact ⟨rfl, fun _ => rfl⟩
  | succ f ih =>
    intro cur
    constructor
    · by_cases he : c.isEval cur = true
      · rw [loopAux, if_pos he]
        by_cases hstop : c.computeBest cur > -1 ∧
            (cur : ℤ) - c.computeBest cur > c.patience
        · simp only [if_pos hstop]
          rfl
        · simp only [if_neg hstop]
          exact (ih (cur + 1)).2 (c.computeBest cur)
      · rw [loopAux, if_neg he]
        rfl
    · intro b
      by_cases he : c.isEval cur = true
      · rw [loopAux, if_pos he]
        by_cases hstop : c.computeBest cur > -1 ∧
            (cur : ℤ) - c.computeBest cur > c.patience
        · simp only [if_pos hstop]
          rfl
        · simp only [if_neg hstop]
          exact (ih (cur + 1)).2 (c.computeBest cur)
      · rw [loopAux, if_neg he]
        by_cases hstop : b > -1 ∧ (cur : ℤ) - b > c.patience
        · simp only [if_pos hstop]
          rfl
        · simp only [if_neg hstop]
          have hrec := (ih (cur + 1)).2 b
          simpa using hrec

/-- C8 (amended): the end-of-epoch logic never reads `best_epoch` before it is
assigned, for every run of `custom_train` — resumed or not.  But the reason is
not that the first executed epoch is always an evaluation epoch: when it is
not (checkpoint resume at a non-evaluation epoch), the run instead fails with
an IndexError at line 183 (`perf[i].append(perf[i][-1])` on the empty
validation history) before the end-of-epoch best-checkpoint/early-stopping
checks are reached, so the unbound read still never happens. -/
theorem custom_train_no_unbound_best_epoch_read (c : TrainCfg) :
    isNameError (custom_train_run c).2 = false ∧
    (c.isEval c.startEpoch = false → c.startEpoch < c.maxEpoch →
      custom_train_run c = ([c.startEpoch], Outcome.indexError c.startEpoch)) := by
  constructor
  · exact (loopAux_no_nameError c (c.maxEpoch - c.startEpoch) c.startEpoch).1
  · intro he hlt
    unfold custom_train_run
    obtain ⟨f, hf⟩ : ∃ f, c.maxEpoch - c.startEpoch = f + 1 :=
      ⟨c.maxEpoch - c.startEpoch - 1, by omega⟩
    rw [hf, loopAux, if_neg (by rw [he]; exact Bool.false_ne_true)]
    rfl

/-- C8 counterexample: a run resumed at epoch 2 with `eval_period = 9` and
`max_epoch = 6`: its first executed epoch is not an evaluation epoch, refuting
the claim's "the first executed epoch is always an evaluation epoch"; the run
aborts with the line-183 IndexError, so no unbound `best_epoch` read occurs. -/
def cfgResume2 : TrainCfg where
  isEval e := decide ((e + 1) % 9 = 0 ∨ e = 0 ∨ e + 1 = 6)
  computeBest _ := 0
  patience := 30
  maxEpoch := 6
  startEpoch := 2

theorem custom_train_unbound_read_counterexample :
    cfgResume2.isEval cfgResume2.startEpoch = false ∧
    custom_train_run cfgResume2 = ([2], Outcome.indexError 2) ∧
    isNameError (custom_train_run cfgResume2).2 = false := by
  exact ⟨by decide, rfl, rfl⟩

theorem custom_train_no_unbound_best_epoch_read_witness :
    cfgResume2.isEval cfgResume2.startEpoch = false ∧
    cfgResume2.startEpoch < cfgResume2.maxEpoch ∧
    isNameError (custom_train_run cfgResume2).2 = false ∧
    custom_train_run cfgResume2 =
      ([cfgResume2.startEpoch], Outcome.indexError cfgResume2.startEpoch) :=
  ⟨by decide, by decide,
   (custom_train_no_unbound_best_epoch_read cfgResume2).1,
   (custom_train_no_unbound_best_epoch_read cfgResume2).2 (by decide) (by decide)⟩

end CustomTrain
